import Mathlib

/-!
Formal model of the `ds` package of datastar-templ, a Go helper library that
builds Datastar HTML attribute names and values for templ templates.

The embedding follows the Go source:

* `templ.Attributes` (a Go `map[string]any` holding `string` or `bool`
  values) is modelled as an association list `AttrMap`; map assignment
  `m[k] = v` is `insertAttr`, which replaces any previous binding of `k`.
* Go `float64` parameters are modelled by the exact rational value of the
  IEEE-754 binary64 argument (every finite double is a rational).  The Go
  formatting verb `%.2f` is correct rounding of that exact value to two
  fractional digits with ties to even (Go `strconv` fixed-precision
  formatting), modelled by `rne`/`fmtF2Int`.
* `time.Duration` is an `int64` count of nanoseconds; `Duration.Round` and
  `Duration.Milliseconds` are modelled including the documented int64
  overflow clamping of `Round` (`wrap64`, `maxDuration`).
* Functions that `panic` on bad input return `Option` (`none` = panic);
  the error-returning `*Safe` variants return `Except String`.
* The `sync.Pool` of scratch `strings.Builder`s and the exact-capacity
  precalculation passes affect only allocation, not the produced strings,
  and are not part of the observable model.
-/

namespace DS

/-- Attribute value: either a string value or a boolean (valueless)
attribute, mirroring the two value shapes the library stores in
`templ.Attributes`. -/
inductive AttrVal where
  | str (s : String)
  | boolean (b : Bool)
deriving DecidableEq, Repr

/-- Attribute map handed to the template renderer (`templ.Attributes`).
Represented as an association list; lookup takes the latest binding, and
`insertAttr` (Go map assignment) removes any earlier binding of the key. -/
abbrev AttrMap := List (String × AttrVal)

/-- Modifier is a Datastar attribute modifier suffix (Go `type Modifier string`). -/
abbrev Modifier := String

/-- Common prefix of all Datastar attributes (source constant `prefix` = `"data-"`;
renamed because the source name is not a legal Lean identifier). -/
def nsData : String := "data-"

/-- Prefix for DOM event handler attributes (source constant `prefixOn` = `"data-on:"`). -/
def nsDataOn : String := "data-on:"

/-- Separator between attribute names and keys in keyed attributes (source `sepColon`). -/
def sepColon : String := ":"

/-- DOM event name used by `OnClick` (source constant `eventClick`). -/
def eventClick : String := "click"

/-- Attribute identifier used by `OnIntersect` (source constant `attrOnIntersect`). -/
def attrOnIntersect : String := "on-intersect"

/-- Attribute identifier used by `Signals` (source constant `attrSignals`). -/
def attrSignals : String := "signals"

/-- Double-underscore debounce modifier constant `ModDebounce`. -/
def ModDebounce : Modifier := "__debounce"

/-- Double-underscore threshold modifier constant `ModThreshold`. -/
def ModThreshold : Modifier := "__threshold"

/-- Concatenation of modifiers into a single string (source `mods`): empty
input short-circuits to `""`, otherwise the pooled builder appends each
modifier in caller-supplied order. -/
def mods (modifiers : List Modifier) : String :=
  match modifiers with
  | [] => ""
  | _ => modifiers.foldl (fun acc m => acc ++ m) ""

/-- Event attribute name `"data-on:{event}{modifiers}"` (source `on`). -/
def onEvt (event : String) (modifiers : List Modifier) : String :=
  nsDataOn ++ event ++ mods modifiers

/-- Plugin attribute name `"data-{name}{modifiers}"` (source `plugin`). -/
def plugin (name : String) (modifiers : List Modifier) : String :=
  nsData ++ name ++ mods modifiers

/-- Keyed attribute name `"data-{name}:{key}{modifiers}"` (source `keyed`). -/
def keyed (name key : String) (modifiers : List Modifier) : String :=
  nsData ++ name ++ sepColon ++ key ++ mods modifiers

/-- Attributes with a single key-value pair (source `val`). -/
def val (name value : String) : AttrMap :=
  [(name, .str value)]

/-- Attributes with a single boolean (valueless) attribute (source `boolAttr`). -/
def boolAttr (name : String) : AttrMap :=
  [(name, .boolean true)]

/-- OnClick handles the `"click"` event: `val (on eventClick modifiers) expr`. -/
def OnClick (expr : String) (modifiers : List Modifier) : AttrMap :=
  val (onEvt eventClick modifiers) expr

/-- OnIntersect runs an expression when the element intersects the viewport:
`val (plugin attrOnIntersect modifiers) expr`. -/
def OnIntersect (expr : String) (modifiers : List Modifier) : AttrMap :=
  val (plugin attrOnIntersect modifiers) expr

/-- Largest `time.Duration` value (`int64` nanoseconds), `1<<63 - 1`. -/
def maxDuration : ℤ := 2 ^ 63 - 1

/-- Smallest `time.Duration` value, `-1 << 63`. -/
def minDuration : ℤ := -(2 ^ 63)

/-- Reduction of an integer to the int64 value its two's-complement bit
pattern represents (wrap-around semantics of Go int64 addition). -/
def wrap64 (z : ℤ) : ℤ :=
  (z + 2 ^ 63) % 2 ^ 64 - 2 ^ 63

/-- Model of `d.Round(time.Millisecond)` from Go `time`: round to the nearest
multiple of 10^6 ns, ties away from zero, clamping to `minDuration` /
`maxDuration` when the adjusted value overflows int64.  Go `%` on int64 is
truncated toward zero, i.e. `Int.tmod`; `lessThanHalf x y` is
`uint64(x)+uint64(x) < uint64(y)`, which for the values reached
(`0 ≤ x < y = 10^6`) is exactly `2*x < y`. -/
def goRoundMs (d : ℤ) : ℤ :=
  let m : ℤ := 1000000
  let r := Int.tmod d m
  if d < 0 then
    let r' := -r
    if 2 * r' < m then d + r'
    else
      let d1 := wrap64 (d - m + r')
      if d1 < d then d1 else minDuration
  else
    if 2 * r < m then d - r
    else
      let d1 := wrap64 (d + m - r)
      if d < d1 then d1 else maxDuration

/-- Model of Go `Duration.Milliseconds()`: integer division by 10^6 truncated
toward zero (`Int.tdiv`, which Go `/` uses on int64). -/
def durationMs (d : ℤ) : ℤ :=
  Int.tdiv d 1000000

/-- String built by `Duration` on its success path:
`fmt.Sprintf(".%dms", d.Round(time.Millisecond).Milliseconds())`. -/
def durationRender (d : ℤ) : String :=
  "." ++ toString (durationMs (goRoundMs d)) ++ "ms"

/-- Duration returns a `".{N}ms"` modifier tag, rounded to the nearest
millisecond; panics (`none`) if the duration is negative (source `Duration`). -/
def Duration (d : ℤ) : Option Modifier :=
  if d < 0 then none else some (durationRender d)

/-- Ms returns a `".{n}ms"` modifier tag; panics (`none`) if `n` is negative
(source `Ms`). -/
def Ms (n : ℤ) : Option Modifier :=
  if n < 0 then none else some ("." ++ toString n ++ "ms")

/-- Seconds returns a `".{n}s"` modifier tag; panics (`none`) if `n` is
negative (source `Seconds`). -/
def Seconds (n : ℤ) : Option Modifier :=
  if n < 0 then none else some ("." ++ toString n ++ "s")

/-- Rounding of a rational to the nearest integer with ties to even: the
rounding Go `strconv` fixed-precision formatting applies to the exact value
of a float at the last kept digit (`shouldRoundUp` in strconv/decimal.go). -/
def rne (q : ℚ) : ℤ :=
  if q - ⌊q⌋ < 1/2 then ⌊q⌋
  else if 1/2 < q - ⌊q⌋ then ⌊q⌋ + 1
  else if ⌊q⌋ % 2 = 0 then ⌊q⌋ else ⌊q⌋ + 1

/-- Two-digit zero-padded decimal rendering of a natural number below 100. -/
def pad2 (n : ℕ) : String :=
  if n < 10 then "0" ++ toString n else toString n

/-- Fixed-point rendering of a value whose hundredths-rounded magnitude is
`n`: the digits of `n / 100`, a dot, then two digits of `n % 100`. -/
def fmtF2Int (n : ℕ) : String :=
  toString (n / 100) ++ "." ++ pad2 (n % 100)

/-- Model of Go `fmt.Sprintf("%.2f", q)` for a non-negative float whose exact
value is `q`: correct rounding of `q` at the hundredths place with ties to
even, rendered with exactly two fractional digits. -/
def goFmtF2 (q : ℚ) : String :=
  fmtF2Int (rne (100 * q)).toNat

/-- Model of `strings.TrimPrefix(s, "0")`: drop one leading `'0'` if present. -/
def trimZero (s : String) : String :=
  match s.data with
  | '0' :: rest => String.mk rest
  | _ => s

/-- Threshold returns a visibility percentage modifier tag; panics (`none`)
if `t ≤ 0` or `t > 1`; renders `".100"` for `t == 1` and otherwise
`strings.TrimPrefix(fmt.Sprintf("%.2f", t), "0")` (source `Threshold`).
The argument is the exact rational value of the float64 passed in Go. -/
def Threshold (t : ℚ) : Option Modifier :=
  if t ≤ 0 ∨ 1 < t then none
  else if t = 1 then some ".100"
  else some (trimZero (goFmtF2 t))

/-- Modelled from the spec: the error-returning variant `DurationSafe` is
referenced by the repository tests but its definition is not under `src/`;
per the spec it performs the validation of `Duration` identically and
surfaces the failure as a recoverable error instead of aborting. -/
def DurationSafe (d : ℤ) : Except String Modifier :=
  if d < 0 then .error "ds: duration must not be negative"
  else .ok (durationRender d)

/-- Modelled from the spec: the error-returning variant `MsSafe`, validating
exactly as `Ms` and surfacing failure as an error. -/
def MsSafe (n : ℤ) : Except String Modifier :=
  if n < 0 then .error "ds: milliseconds must not be negative"
  else .ok ("." ++ toString n ++ "ms")

/-- Modelled from the spec: the error-returning variant `SecondsSafe`,
validating exactly as `Seconds` and surfacing failure as an error. -/
def SecondsSafe (n : ℤ) : Except String Modifier :=
  if n < 0 then .error "ds: seconds must not be negative"
  else .ok ("." ++ toString n ++ "s")

/-- Modelled from the spec: the error-returning variant `ThresholdSafe`,
validating exactly as `Threshold` and surfacing failure as an error. -/
def ThresholdSafe (t : ℚ) : Except String Modifier :=
  if t ≤ 0 ∨ 1 < t then
    .error "ds: threshold must be between 0.0 (exclusive) and 1.0 (inclusive)"
  else if t = 1 then .ok ".100"
  else .ok (trimZero (goFmtF2 t))

/-- Exact value of the IEEE-754 binary64 double nearest to `q`, given the
binade witness `k` with `2^-(k+1) ≤ q < 2^-k` (see `inBinade`): the
53-bit significand is obtained by rounding `q·2^(k+53)` to the nearest
integer with ties to even, as Go's conversion of a decimal floating-point
literal to `float64` does. -/
def nearestDouble (k : ℕ) (q : ℚ) : ℚ :=
  (rne (q * 2 ^ (k + 53)) : ℚ) / 2 ^ (k + 53)

/-- Certificate that `k` is the binade exponent of `q` inside `(0, 1]`:
`2^-(k+1) ≤ q < 2^-k`, so that `q·2^(k+53)` lies in `[2^52, 2^53)` and
`nearestDouble k q` is the double nearest to `q`. -/
def inBinade (k : ℕ) (q : ℚ) : Prop :=
  ((2 : ℚ) ^ (k + 1))⁻¹ ≤ q ∧ q < ((2 : ℚ) ^ k)⁻¹

/-- Entry string of one rendered quoted pair: `'{key}': {formatted value}`. -/
def pairEntry (valueFmt : String → String) (k v : String) : String :=
  "\x27" ++ k ++ "\x27: " ++ valueFmt v

/-- Continuation of the `toPairs` loop: every entry after the first is
prefixed by `", "` (the `i > 0` branch of the Go loop). -/
def pairsRest (valueFmt : String → String) : List String → String
  | k :: v :: rest => ", " ++ pairEntry valueFmt k v ++ pairsRest valueFmt rest
  | _ => ""

/-- Body of the object literal built by `toPairs`: first entry bare, the
rest comma-space separated, consuming the flat list two strings at a time. -/
def pairsBody (valueFmt : String → String) : List String → String
  | k :: v :: rest => pairEntry valueFmt k v ++ pairsRest valueFmt rest
  | _ => ""

/-- toPairs builds a JavaScript object literal from key-value string pairs;
panics (`none`) if `pairs` is odd-length (source `toPairs`).  The panic
message argument is kept for fidelity; it does not influence the result. -/
def toPairs (pairs : List String) (failMsg : String)
    (valueFmt : String → String) : Option String :=
  if pairs.length % 2 = 1 then none
  else some ("\x7b" ++ pairsBody valueFmt pairs ++ "\x7d")

/-- toObject builds `"\x7bk1: v1, k2: v2\x7d"` with identity value formatting
(source `toObject`). -/
def toObject (pairs : List String) : Option String :=
  toPairs pairs "ds: each key must have a value" (fun v => v)

/-- toComputed builds the object with every value wrapped as an arrow function
`"() => v"` (source `toComputed`). -/
def toComputed (pairs : List String) : Option String :=
  toPairs pairs "ds: each computed signal name must have an expression"
    (fun v => "() => " ++ v)

/-- Go map assignment `m[k] = v` on the association-list model: any earlier
binding of `k` is replaced. -/
def insertAttr (m : AttrMap) (k : String) (v : AttrVal) : AttrMap :=
  m.filter (fun p => p.1 != k) ++ [(k, v)]

/-- Merge combines multiple attribute maps into one (source `Merge`): a fresh
map receives every entry of every input in order, later inputs overwriting
earlier ones on key collision.  The exact-size preallocation of the Go code
affects only allocation and is not modelled. -/
def Merge (attrs : List AttrMap) : AttrMap :=
  attrs.foldl (fun acc a => a.foldl (fun acc2 p => insertAttr acc2 p.1 p.2) acc) []

/-- Lookup in the association-list model of a Go map: the latest binding of
the key wins. -/
def lookupA (m : AttrMap) (k : String) : Option AttrVal :=
  m.foldl (fun acc p => if p.1 = k then some p.2 else acc) none

/-- Value assigned to key `k` by the latest input map that binds it: later
inputs take precedence, earlier ones are consulted only when every later map
leaves `k` unbound (specification of last-write-wins). -/
def lastWrite : List AttrMap → String → Option AttrVal
  | [], _ => none
  | m :: rest, k =>
    match lastWrite rest k with
    | some v => some v
    | none => lookupA m k

/-- Signal represents a typed key-value pair for signals (source `Signal`,
fields `key` and `value`, the value already rendered to its JavaScript
source text by the typed constructor). -/
structure Signal where
  key : String
  value : String
deriving DecidableEq, Repr

/-- Escaping of a single ASCII character as Go `strconv.Quote` performs it:
quote and backslash get a backslash, the standard control escapes are used
where they exist, other control bytes become `\xHH`.  (For non-ASCII runes
`strconv.Quote` additionally consults the Unicode printability tables; no
claim exercises non-ASCII input, and such runes are kept verbatim here.) -/
def goQuoteChar (c : Char) : String :=
  if c = '"' then "\\\""
  else if c = '\\' then "\\\\"
  else if c = '\x07' then "\\a"
  else if c = '\x08' then "\\b"
  else if c = '\x0c' then "\\f"
  else if c = '\n' then "\\n"
  else if c = '\r' then "\\r"
  else if c = '\t' then "\\t"
  else if c = '\x0b' then "\\v"
  else if c.toNat < 32 ∨ c.toNat = 127 then
    "\\x" ++ String.mk [Nat.digitChar (c.toNat / 16), Nat.digitChar (c.toNat % 16)]
  else String.mk [c]

/-- Model of Go `strconv.Quote`: the escaped characters inside double quotes. -/
def goQuote (s : String) : String :=
  "\"" ++ String.join (s.data.map goQuoteChar) ++ "\""

/-- Int creates an integer signal (source `Int`, via `strconv.Itoa`; named
`Signal.int` because `Int` is taken in Lean). -/
def Signal.int (key : String) (value : ℤ) : Signal :=
  ⟨key, toString value⟩

/-- String creates a string signal, quoted for JavaScript via
`strconv.Quote` (source `String`; named `Signal.string` in Lean). -/
def Signal.string (key value : String) : Signal :=
  ⟨key, goQuote value⟩

/-- Bool creates a boolean signal (source `Bool`, via `strconv.FormatBool`). -/
def Signal.bool (key : String) (value : Bool) : Signal :=
  ⟨key, toString value⟩

/-- Continuation of the shared object-literal building loop: entries after
the first are prefixed by `", "` (the `i > 0` branch of the Go loops). -/
def loopRest (entry : α → String) : List α → String
  | [] => ""
  | x :: rest => ", " ++ entry x ++ loopRest entry rest

/-- Join of rendered entries exactly as the Go builder loops produce it:
first entry bare, the rest comma-space prefixed. -/
def loopJoin (entry : α → String) : List α → String
  | [] => ""
  | x :: rest => entry x ++ loopRest entry rest

/-- Entry rendered by the `Signals` loop: `{key}: {value}`, key unquoted. -/
def sigEntry (s : Signal) : String :=
  s.key ++ ": " ++ s.value

/-- Signals patches one or more signals using typed helpers (the
`buildPairs`-era copy of `Signals` in attrs.go): an object literal with
unquoted keys built with the shared builder pool. -/
def Signals (signals : List Signal) : AttrMap :=
  [("data-signals", .str ("\x7b" ++ loopJoin sigEntry signals ++ "\x7d"))]

/-- Signals as defined by the second, dedicated-pool copy in attrs.go: the
same loop writing `{key}: {value}` entries, drawing its scratch builder from
`signalsBuilderPool` instead of `sharedBuilderPool`. -/
def SignalsDedicated (signals : List Signal) : AttrMap :=
  [("data-signals", .str ("\x7b" ++ loopJoin sigEntry signals ++ "\x7d"))]

/-- PairItem represents a key-value expression binding (source `PairItem`). -/
structure PairItem where
  key : String
  expr : String
deriving DecidableEq, Repr

/-- buildPairs is the generic helper building a quoted-key JavaScript object
literal from typed pairs, with a value formatter (source `buildPairs`). -/
def buildPairs (pairs : List PairItem) (valueFormatter : String → String) : String :=
  "\x7b" ++
    loopJoin (fun p => "\x27" ++ p.key ++ "\x27: " ++ valueFormatter p.expr) pairs
    ++ "\x7d"

/-- Class built via the generic `buildPairs` helper with the identity value
formatter (the `buildPairs`-era copy of `Class` in attrs.go). -/
def ClassGeneric (pairs : List PairItem) : AttrMap :=
  [("data-class", .str (buildPairs pairs (fun expr => expr)))]

/-- ClassPair represents a CSS class name and its binding expression (source
`ClassPair`; the Go field `class` is a Lean keyword and is named `cls`). -/
structure ClassPair where
  cls : String
  expr : String
deriving DecidableEq, Repr

/-- Class as defined by the dedicated-pool copy in attrs.go: its own loop
writing `'{class}': {expr}` entries from `ClassPair` values. -/
def ClassDedicated (pairs : List ClassPair) : AttrMap :=
  [("data-class", .str ("\x7b" ++
    loopJoin (fun p => "\x27" ++ p.cls ++ "\x27: " ++ p.expr) pairs ++ "\x7d"))]

/-- Comma-space join of rendered entries, stated independently of the
builder loops (the form the spec describes). -/
def specJoin : List String → String
  | [] => ""
  | [e] => e
  | e :: f :: rest => e ++ ", " ++ specJoin (f :: rest)

/-- Object literal with single-quoted keys as the spec words it:
`\x7b'k1': v1, 'k2': v2\x7d` in input order, comma-space separated. -/
def renderPairsSpec (kvs : List (String × String)) : String :=
  "\x7b" ++ specJoin (kvs.map fun p => "\x27" ++ p.1 ++ "\x27: " ++ p.2) ++ "\x7d"

/-- Flat argument list corresponding to a list of key-value pairs. -/
def flattenPairs : List (String × String) → List String
  | [] => []
  | p :: rest => p.1 :: p.2 :: flattenPairs rest

/-- Threshold rendering as claim C2 words it for `0 < t < 1`: the value
rounded at the hundredths place with ties half-up (Mathlib `round`), scaled
to two digits, with the leading zero stripped. -/
def thresholdSpecHalfUp (t : ℚ) : String :=
  "." ++ pad2 (round ((100 : ℚ) * t)).toNat

/-- Millisecond count of `d` nanoseconds rounded to nearest with ties half
away from zero, for `d ≥ 0` (the rounding claim C4 specifies). -/
def halfAwayMs (d : ℤ) : ℤ :=
  (d + 500000) / 1000000

/-- Decision procedure for the regular expression of claim C3,
`^\.(?:\d\d|100)$`: a dot followed by exactly two digits, or `".100"`. -/
def matchesThresholdRe (s : String) : Bool :=
  match s.data with
  | '.' :: rest => (rest.length == 2 && rest.all Char.isDigit) || (rest == ['1', '0', '0'])
  | _ => false

/-! General lemmas about the shared builder loop and string helpers. -/

theorem loopRest_eq_join (entry : α → String) (x : α) (xs : List α) :
    loopRest entry (x :: xs) = ", " ++ loopJoin entry (x :: xs) := by
  simp [loopRest, loopJoin, String.append_assoc]

theorem loopJoin_specJoin (entry : α → String) (xs : List α) :
    loopJoin entry xs = specJoin (xs.map entry) := by
  induction xs with
  | nil => rfl
  | cons x rest ih =>
    cases rest with
    | nil => simp [loopJoin, loopRest, specJoin]
    | cons y r =>
      show entry x ++ loopRest entry (y :: r) = specJoin (entry x :: entry y :: (r.map entry))
      rw [loopRest_eq_join, ih]
      show entry x ++ (", " ++ specJoin (entry y :: r.map entry)) =
        specJoin (entry x :: entry y :: r.map entry)
      rw [specJoin]
      simp [String.append_assoc]

theorem trimZero_zeroDot (s : String) : trimZero ("0." ++ s) = "." ++ s := by
  cases s
  rfl

theorem dot_append_data (s : String) : ("." ++ s).data = '.' :: s.data := by
  cases s
  rfl

theorem pad2_shape : ∀ n : ℕ, n < 100 →
    (pad2 n).data.length = 2 ∧ (pad2 n).data.all Char.isDigit = true := by
  decide

theorem matches_dot_pad2 {n : ℕ} (h : n < 100) :
    matchesThresholdRe ("." ++ pad2 n) = true := by
  unfold matchesThresholdRe
  rw [dot_append_data]
  obtain ⟨hl, hd⟩ := pad2_shape n h
  simp [hl, hd]

/-! Lemmas about the rounding function and `Threshold`. -/

theorem rne_ge_floor (q : ℚ) : ⌊q⌋ ≤ rne q := by
  unfold rne
  split
  · exact le_refl _
  · split
    · omega
    · split
      · exact le_refl _
      · omega

theorem rne_nonneg {q : ℚ} (h : 0 ≤ q) : 0 ≤ rne q :=
  le_trans (Int.floor_nonneg.mpr h) (rne_ge_floor q)

theorem threshold_core {t : ℚ} (h0 : 0 < t) (h1 : t < 1) :
    Threshold t = some (trimZero (fmtF2Int (rne (100 * t)).toNat)) := by
  unfold Threshold goFmtF2
  rw [if_neg (show ¬(t ≤ 0 ∨ 1 < t) from by push_neg; exact ⟨h0, h1.le⟩),
    if_neg (ne_of_lt h1)]

theorem threshold_render_lt {t : ℚ} (h0 : 0 < t) (h1 : t < 1)
    (h2 : rne (100 * t) < 100) :
    Threshold t = some ("." ++ pad2 (rne (100 * t)).toNat) := by
  rw [threshold_core h0 h1]
  have hn0 : 0 ≤ rne (100 * t) := rne_nonneg (by positivity)
  set n := rne (100 * t) with hn
  have hm : n.toNat < 100 := by omega
  have hfmt : fmtF2Int n.toNat = "0." ++ pad2 n.toNat := by
    unfold fmtF2Int
    rw [Nat.div_eq_of_lt hm, Nat.mod_eq_of_lt hm,
      show (toString (0 : ℕ) ++ "." : String) = "0." from rfl]
  rw [hfmt, trimZero_zeroDot]

theorem threshold_render_eq100 {t : ℚ} (h0 : 0 < t) (h1 : t < 1)
    (h2 : rne (100 * t) = 100) :
    Threshold t = some "1.00" := by
  rw [threshold_core h0 h1, h2]
  rfl

/-! Lemmas about the association-list model of `templ.Attributes`. -/

theorem lookupA_foldl (k : String) (l : AttrMap) (i : Option AttrVal) :
    l.foldl (fun acc p => if p.1 = k then some p.2 else acc) i =
      match lookupA l k with
      | some v => some v
      | none => i := by
  induction l generalizing i with
  | nil => simp [lookupA]
  | cons p rest ih =>
    show List.foldl _ (if p.1 = k then some p.2 else i) rest = _
    rw [ih]
    have hr : lookupA (p :: rest) k =
        match lookupA rest k with
        | some v => some v
        | none => if p.1 = k then some p.2 else none := by
      show List.foldl _ (if p.1 = k then some p.2 else none) rest = _
      rw [ih]
    rw [hr]
    cases lookupA rest k <;> by_cases h : p.1 = k <;> simp [h]

theorem lookupA_cons (p : String × AttrVal) (l : AttrMap) (k : String) :
    lookupA (p :: l) k =
      match lookupA l k with
      | some v => some v
      | none => if p.1 = k then some p.2 else none := by
  show List.foldl _ (if p.1 = k then some p.2 else none) l = _
  rw [lookupA_foldl]

theorem lookupA_append (m1 m2 : AttrMap) (k : String) :
    lookupA (m1 ++ m2) k =
      match lookupA m2 k with
      | some v => some v
      | none => lookupA m1 k := by
  show List.foldl _ none (m1 ++ m2) = _
  rw [List.foldl_append, lookupA_foldl]
  rfl

theorem lookupA_filter_ne {k k' : String} (h : k' ≠ k) (m : AttrMap) :
    lookupA (m.filter (fun p => p.1 != k)) k' = lookupA m k' := by
  induction m with
  | nil => rfl
  | cons p rest ih =>
    by_cases hp : p.1 = k
    · rw [List.filter_cons_of_neg (by simp [hp]), ih, lookupA_cons]
      have hk' : ¬ p.1 = k' := fun he => h (by rw [← he, hp])
      cases hl : lookupA rest k' <;> simp [hk']
    · rw [List.filter_cons_of_pos (by simp [hp]), lookupA_cons, lookupA_cons, ih]

theorem lookupA_insert (m : AttrMap) (k : String) (v : AttrVal) (k' : String) :
    lookupA (insertAttr m k v) k' = if k' = k then some v else lookupA m k' := by
  unfold insertAttr
  rw [lookupA_append]
  by_cases h : k' = k
  · subst h
    have hsome : lookupA [(k', v)] k' = some v := by
      show (if k' = k' then some v else none) = some v
      simp
    rw [hsome]
    simp
  · have hnone : lookupA [(k, v)] k' = none := by
      show (if k = k' then some v else none) = none
      rw [if_neg (fun he => h he.symm)]
    rw [hnone, if_neg h, lookupA_filter_ne h]

theorem lookupA_innerFold (a : AttrMap) (acc : AttrMap) (k : String) :
    lookupA (a.foldl (fun m p => insertAttr m p.1 p.2) acc) k =
      match lookupA a k with
      | some v => some v
      | none => lookupA acc k := by
  induction a generalizing acc with
  | nil => rfl
  | cons p rest ih =>
    show lookupA (List.foldl _ (insertAttr acc p.1 p.2) rest) k = _
    rw [ih, lookupA_cons, lookupA_insert]
    by_cases h : p.1 = k
    · cases lookupA rest k <;> simp [h, if_pos h.symm]
    · have h' : ¬ k = p.1 := fun he => h he.symm
      cases lookupA rest k <;> simp [h, h']

theorem merge_lookup (ms : List AttrMap) (k : String) :
    lookupA (Merge ms) k = lastWrite ms k := by
  suffices h : ∀ (acc : AttrMap),
      lookupA (ms.foldl (fun acc a => a.foldl (fun m p => insertAttr m p.1 p.2) acc) acc) k =
        match lastWrite ms k with
        | some v => some v
        | none => lookupA acc k by
    rw [Merge, h []]
    cases lastWrite ms k <;> rfl
  induction ms with
  | nil => intro acc; rfl
  | cons a rest ih =>
    intro acc
    show lookupA (List.foldl _ (a.foldl _ acc) rest) k = _
    rw [ih, lookupA_innerFold]
    show _ = match (match lastWrite rest k with
      | some v => some v
      | none => lookupA a k) with
      | some v => some v
      | none => lookupA acc k
    cases lastWrite rest k <;> cases lookupA a k <;> simp

theorem insertAttr_length (m : AttrMap) (k : String) (v : AttrVal) :
    (insertAttr m k v).length ≤ m.length + 1 := by
  unfold insertAttr
  rw [List.length_append]
  have := List.length_filter_le (fun p => p.1 != k) m
  simp only [List.length_cons, List.length_nil]
  omega

theorem innerFold_length (a : AttrMap) (acc : AttrMap) :
    (a.foldl (fun m p => insertAttr m p.1 p.2) acc).length ≤ acc.length + a.length := by
  induction a generalizing acc with
  | nil => simp
  | cons p rest ih =>
    show (List.foldl _ (insertAttr acc p.1 p.2) rest).length ≤ _
    calc (List.foldl (fun m p => insertAttr m p.1 p.2) (insertAttr acc p.1 p.2) rest).length
        ≤ (insertAttr acc p.1 p.2).length + rest.length := ih _
      _ ≤ acc.length + 1 + rest.length := by
          have := insertAttr_length acc p.1 p.2
          omega
      _ = acc.length + (rest.length + 1) := by omega
      _ = acc.length + (p :: rest).length := by rw [List.length_cons]

theorem merge_length (ms : List AttrMap) :
    (Merge ms).length ≤ (ms.map List.length).sum := by
  suffices h : ∀ (acc : AttrMap),
      (ms.foldl (fun acc a => a.foldl (fun m p => insertAttr m p.1 p.2) acc) acc).length ≤
        acc.length + (ms.map List.length).sum by
    have := h []
    rw [Merge]
    simpa using this
  induction ms with
  | nil => intro acc; simp
  | cons a rest ih =>
    intro acc
    show (List.foldl _ (a.foldl _ acc) rest).length ≤ _
    calc (List.foldl (fun acc a => a.foldl (fun m p => insertAttr m p.1 p.2) acc)
            (a.foldl (fun m p => insertAttr m p.1 p.2) acc) rest).length
        ≤ (a.foldl (fun m p => insertAttr m p.1 p.2) acc).length + (rest.map List.length).sum :=
          ih _
      _ ≤ acc.length + a.length + (rest.map List.length).sum := by
          have := innerFold_length a acc
          omega
      _ = acc.length + ((a :: rest).map List.length).sum := by
          rw [List.map_cons, List.sum_cons]
          omega

/-! Lemmas about the flat-pair builder `toPairs`. -/

theorem flattenPairs_length (kvs : List (String × String)) :
    (flattenPairs kvs).length = 2 * kvs.length := by
  induction kvs with
  | nil => rfl
  | cons p rest ih =>
    show (flattenPairs rest).length + 1 + 1 = 2 * (rest.length + 1)
    omega

theorem pairsRest_flatten (f : String → String) (kvs : List (String × String)) :
    pairsRest f (flattenPairs kvs) =
      match kvs with
      | [] => ""
      | _ :: _ => ", " ++ specJoin (kvs.map fun p => pairEntry f p.1 p.2) := by
  induction kvs with
  | nil => rfl
  | cons p rest ih =>
    show ", " ++ pairEntry f p.1 p.2 ++ pairsRest f (flattenPairs rest) = _
    rw [ih]
    cases rest with
    | nil => simp [specJoin]
    | cons q r =>
      show ", " ++ pairEntry f p.1 p.2 ++
          (", " ++ specJoin ((q :: r).map fun p => pairEntry f p.1 p.2)) =
        ", " ++ (pairEntry f p.1 p.2 ++ ", " ++
          specJoin ((q :: r).map fun p => pairEntry f p.1 p.2))
      simp [String.append_assoc]

theorem pairsBody_flatten (f : String → String) (kvs : List (String × String)) :
    pairsBody f (flattenPairs kvs) = specJoin (kvs.map fun p => pairEntry f p.1 p.2) := by
  cases kvs with
  | nil => rfl
  | cons p rest =>
    show pairEntry f p.1 p.2 ++ pairsRest f (flattenPairs rest) = _
    rw [pairsRest_flatten]
    cases rest with
    | nil => simp [specJoin]
    | cons q r =>
      show pairEntry f p.1 p.2 ++
          (", " ++ specJoin ((q :: r).map fun p => pairEntry f p.1 p.2)) =
        pairEntry f p.1 p.2 ++ ", " ++
          specJoin ((q :: r).map fun p => pairEntry f p.1 p.2)
      simp [String.append_assoc]

/-! Claim theorems. -/

/-- C1: attribute-name assembly concatenates the namespace prefix, the
identifier, and the modifier suffixes in caller-supplied order: for every
expression string, `OnClick(expr, ModDebounce, Ms(300))` returns a map whose
single key is `data-on:click__debounce.300ms`, and
`OnIntersect(expr, ModThreshold, Threshold(0.25))` returns a map whose
single key is `data-on-intersect__threshold.25`. -/
theorem attr_name_assembly (expr : String) :
    (Ms 300).map (fun m => OnClick expr [ModDebounce, m]) =
      some [("data-on:click__debounce.300ms", AttrVal.str expr)] ∧
    (Threshold (1/4)).map (fun m => OnIntersect expr [ModThreshold, m]) =
      some [("data-on-intersect__threshold.25", AttrVal.str expr)] := by
  constructor
  · rw [show Ms 300 = some ".300ms" from by decide]
    show some [(onEvt eventClick [ModDebounce, ".300ms"], AttrVal.str expr)] = _
    rw [show onEvt eventClick [ModDebounce, ".300ms"] = "data-on:click__debounce.300ms"
      from by decide]
  · rw [show Threshold (1/4) = some ".25" from by
      norm_num [Threshold, goFmtF2, rne]
      decide]
    show some [(plugin attrOnIntersect [ModThreshold, ".25"], AttrVal.str expr)] = _
    rw [show plugin attrOnIntersect [ModThreshold, ".25"] = "data-on-intersect__threshold.25"
      from by decide]

/-- C2 counterexample: at `t = 1/8 = 0.125` — an exactly representable
double whose hundredths digit sits on a true tie (12.5) — the code's
`%.2f` rounding is ties-to-even and yields `".12"`, while the round-half-up
rendering the claim specifies yields `".13"`. -/
theorem threshold_halfup_counterexample :
    Threshold (1/8) = some ".12" ∧ thresholdSpecHalfUp (1/8) = ".13" ∧
    Threshold (1/8) ≠ some (thresholdSpecHalfUp (1/8)) := by
  have h1 : Threshold (1/8) = some ".12" := by
    norm_num [Threshold, goFmtF2, rne]
    decide
  have h2 : thresholdSpecHalfUp (1/8) = ".13" := by
    norm_num [thresholdSpecHalfUp, round_eq]
    decide
  refine ⟨h1, h2, ?_⟩
  rw [h1, h2]
  decide

/-- C2 (amended): for every `t` with `0 < t < 1` — `t` being the exact
rational value of the float64 argument — `Threshold t` renders the value of
`t` correctly rounded at the hundredths place with ties to even (not ties
half-up as claimed), as a dot followed by the two rounded digits while that
rounding stays below 1.00, and as `"1.00"` (no leading zero to strip) when
`t` rounds up to one; `Threshold 1 = ".100"`; the claim's concrete
instances hold: `Threshold 0.25 = ".25"` and, with `0.333` / `0.335`
denoting the binary64 doubles nearest those decimal literals, `".33"` and
`".34"`. -/
theorem threshold_rounding :
    (∀ t : ℚ, 0 < t → t < 1 → rne (100 * t) < 100 →
      Threshold t = some ("." ++ pad2 (rne (100 * t)).toNat)) ∧
    (∀ t : ℚ, 0 < t → t < 1 → rne (100 * t) = 100 →
      Threshold t = some "1.00") ∧
    Threshold 1 = some ".100" ∧
    Threshold (1/4) = some ".25" ∧
    (inBinade 1 (333/1000) ∧ Threshold (nearestDouble 1 (333/1000)) = some ".33") ∧
    (inBinade 1 (335/1000) ∧ Threshold (nearestDouble 1 (335/1000)) = some ".34") := by
  refine ⟨fun t h0 h1 h2 => threshold_render_lt h0 h1 h2,
    fun t h0 h1 h2 => threshold_render_eq100 h0 h1 h2, ?_, ?_, ⟨?_, ?_⟩, ⟨?_, ?_⟩⟩
  · norm_num [Threshold]
  · norm_num [Threshold, goFmtF2, rne]
    decide
  · norm_num [inBinade]
  · norm_num [Threshold, nearestDouble, goFmtF2, rne]
    decide
  · norm_num [inBinade]
  · norm_num [Threshold, nearestDouble, goFmtF2, rne]
    decide

/-- C2 witness: the amended rendering theorem applied at `t = 1/2`. -/
theorem threshold_rounding_witness :
    Threshold (1/2) = some ("." ++ pad2 (rne (100 * (1/2 : ℚ))).toNat) :=
  threshold_rounding.1 (1/2) (by norm_num) (by norm_num) (by norm_num [rne])

/-- C3 counterexample: `t = 511/512 = 0.998046875` is an exactly
representable double in `(0, 1)` (so `nearestDouble 0` fixes it), yet
`Threshold t` yields `"1.00"` — `%.2f` rounds it up to `1.00`, the string
has no leading zero to strip, and the result does not match
`^\.(?:\d\d|100)$`. -/
theorem threshold_regex_counterexample :
    inBinade 0 (511/512) ∧ nearestDouble 0 (511/512) = 511/512 ∧
    Threshold (511/512) = some "1.00" ∧ matchesThresholdRe "1.00" = false := by
  refine ⟨by norm_num [inBinade], by norm_num [nearestDouble, rne], ?_, by decide⟩
  norm_num [Threshold, goFmtF2, rne]
  decide

/-- C3 (amended): for every `t` with `0 < t ≤ 1` whose hundredths rounding
stays at or below 99 — or `t = 1` itself — `Threshold t` matches
`^\.(?:\d\d|100)$`; inputs of `(0,1)` that round up to 1.00 render `"1.00"`
instead and are excluded. -/
theorem threshold_shape :
    ∀ t : ℚ, 0 < t → t ≤ 1 → (t = 1 ∨ rne (100 * t) ≤ 99) →
      ∃ s, Threshold t = some s ∧ matchesThresholdRe s = true := by
  intro t h0 h1 h3
  by_cases he : t = 1
  · subst he
    exact ⟨".100", by norm_num [Threshold], by decide⟩
  · have hlt : t < 1 := lt_of_le_of_ne h1 he
    have h99 : rne (100 * t) ≤ 99 := h3.resolve_left he
    exact ⟨"." ++ pad2 (rne (100 * t)).toNat,
      threshold_render_lt h0 hlt (by omega),
      matches_dot_pad2 (by omega)⟩

/-- C3 witness: the amended shape theorem applied at `t = 1`. -/
theorem threshold_shape_witness :
    ∃ s, Threshold 1 = some s ∧ matchesThresholdRe s = true :=
  threshold_shape 1 one_pos (le_refl 1) (Or.inl rfl)

/-- C4 counterexample: at `d = maxDuration = 2^63 - 1` nanoseconds the
fractional part is 0.775807 ms, so rounding to the nearest millisecond
would round up, but `time.Duration.Round` overflows int64 and clamps to
`maxDuration`, so `Duration` truncates down to `".9223372036854ms"` while
`Ms` of the half-away-from-zero rounding gives `".9223372036855ms"`. -/
theorem duration_overflow_counterexample :
    Duration maxDuration ≠ Ms (halfAwayMs maxDuration) ∧
    Duration maxDuration = some ".9223372036854ms" ∧
    Ms (halfAwayMs maxDuration) = some ".9223372036855ms" := by
  refine ⟨by decide, by decide, by decide⟩

/-- C4 (amended): for every non-negative int64 duration `d` whose
nearest-millisecond value still fits in an int64 nanosecond count —
everywhere except the final half millisecond below `maxDuration`, where
`Round` clamps — `Duration d` equals `Ms` of `d` rounded to the nearest
whole millisecond with ties half away from zero; in particular
`Duration 500µs = ".1ms"` and `Duration 100µs = ".0ms"`, and for every
non-negative `n`, `Ms n` renders `".{n}ms"`. -/
theorem duration_round_agrees_ms :
    (∀ d : ℤ, 0 ≤ d → d ≤ maxDuration → halfAwayMs d * 1000000 ≤ maxDuration →
      Duration d = Ms (halfAwayMs d)) ∧
    Duration 500000 = some ".1ms" ∧
    Duration 100000 = some ".0ms" ∧
    (∀ n : ℤ, 0 ≤ n → Ms n = some ("." ++ toString n ++ "ms")) := by
  refine ⟨fun d h0 hmax h2 => ?_, by decide, by decide, fun n hn => by
    unfold Ms
    rw [if_neg (by omega)]⟩
  have hdneg : ¬ d < 0 := by omega
  have htm : Int.tmod d 1000000 = d % 1000000 := Int.tmod_eq_emod h0 (by norm_num)
  unfold Duration Ms durationRender durationMs goRoundMs
  rw [if_neg hdneg, if_neg hdneg, htm]
  have hr0 : 0 ≤ d % 1000000 := Int.emod_nonneg d (by norm_num)
  have hrlt : d % 1000000 < 1000000 := Int.emod_lt_of_pos d (by norm_num)
  have hdiv : d % 1000000 = d - d / 1000000 * 1000000 := by omega
  by_cases hc : 2 * (d % 1000000) < 1000000
  · rw [if_pos hc]
    have ht : Int.tdiv (d - d % 1000000) 1000000 = d / 1000000 := by
      rw [Int.tdiv_eq_ediv (by omega) (by norm_num)]
      omega
    rw [ht]
    have hh : halfAwayMs d = d / 1000000 := by
      unfold halfAwayMs
      omega
    rw [hh, if_neg (by omega : ¬ (d / 1000000 < 0))]
  · rw [if_neg hc]
    have hup : d + 1000000 - d % 1000000 = (d / 1000000 + 1) * 1000000 := by omega
    have hha : halfAwayMs d = d / 1000000 + 1 := by
      unfold halfAwayMs
      omega
    have hbound : d + 1000000 - d % 1000000 ≤ maxDuration := by
      rw [hup, ← hha]
      exact h2
    have hw : wrap64 (d + 1000000 - d % 1000000) = d + 1000000 - d % 1000000 := by
      unfold wrap64
      have ha : (0:ℤ) ≤ d + 1000000 - d % 1000000 + 2^63 := by omega
      have hb : d + 1000000 - d % 1000000 + 2^63 < 2^64 := by
        unfold maxDuration at hbound
        omega
      rw [Int.emod_eq_of_lt ha hb]
      ring
    rw [hw, if_pos (by omega : d < d + 1000000 - d % 1000000)]
    have ht : Int.tdiv (d + 1000000 - d % 1000000) 1000000 = d / 1000000 + 1 := by
      rw [Int.tdiv_eq_ediv (by omega) (by norm_num), hup,
        Int.mul_ediv_cancel _ (by norm_num)]
    rw [ht, hha, if_neg (by omega : ¬ (d / 1000000 + 1 < 0))]

/-- C4 witness: the amended theorem applied at `d = 1500000` ns (a tie,
rounded away from zero to 2 ms). -/
theorem duration_round_agrees_ms_witness :
    Duration 1500000 = Ms (halfAwayMs 1500000) :=
  duration_round_agrees_ms.1 1500000 (by decide) (by decide) (by decide)

/-- C5: the numeric modifier builders fail exactly on out-of-range input:
`Duration`, `Ms` and `Seconds` panic iff their argument is negative (zero
accepted), `Threshold` panics iff `t ≤ 0` or `t > 1`, and on failure no
modifier string is produced (`none`). -/
theorem builders_fail_iff :
    (∀ d : ℤ, Duration d = none ↔ d < 0) ∧
    (∀ n : ℤ, Ms n = none ↔ n < 0) ∧
    (∀ n : ℤ, Seconds n = none ↔ n < 0) ∧
    (∀ t : ℚ, Threshold t = none ↔ (t ≤ 0 ∨ 1 < t)) := by
  refine ⟨fun d => ?_, fun n => ?_, fun n => ?_, fun t => ?_⟩ <;>
    (first
      | (unfold Duration; split_ifs <;> simp_all)
      | (unfold Ms; split_ifs <;> simp_all)
      | (unfold Seconds; split_ifs <;> simp_all)
      | (unfold Threshold; split_ifs <;> simp_all))

/-- C6: each failing modifier builder has a `*Safe` error-returning variant
performing identical validation and differing only in how the failure is
surfaced: erasing the error message (`Except.toOption`) recovers the
panicking variant exactly, so the variants fail on the same inputs and
agree on every produced modifier string. -/
theorem safe_variants_agree :
    (∀ d : ℤ, (DurationSafe d).toOption = Duration d) ∧
    (∀ n : ℤ, (MsSafe n).toOption = Ms n) ∧
    (∀ n : ℤ, (SecondsSafe n).toOption = Seconds n) ∧
    (∀ t : ℚ, (ThresholdSafe t).toOption = Threshold t) := by
  refine ⟨fun d => ?_, fun n => ?_, fun n => ?_, fun t => ?_⟩ <;>
    (first
      | (unfold DurationSafe Duration; split_ifs <;> rfl)
      | (unfold MsSafe Ms; split_ifs <;> rfl)
      | (unfold SecondsSafe Seconds; split_ifs <;> rfl)
      | (unfold ThresholdSafe Threshold; split_ifs <;> rfl))

/-- C7: the flat-string pairwise builders fail (`none`) on an odd-length
argument list; on a matched even-length list they render
`\x7b'k1': v1, 'k2': v2\x7d` with single-quoted keys in input order,
comma-space separated, and the computed builder additionally wraps every
expression as `() => expr` before insertion. -/
theorem pairwise_builders_spec :
    (∀ (ps : List String) (msg : String) (f : String → String),
      ps.length % 2 = 1 → toPairs ps msg f = none) ∧
    (∀ kvs : List (String × String),
      toObject (flattenPairs kvs) = some (renderPairsSpec kvs)) ∧
    (∀ kvs : List (String × String),
      toComputed (flattenPairs kvs) =
        some (renderPairsSpec (kvs.map fun p => (p.1, "() => " ++ p.2)))) := by
  refine ⟨fun ps msg f h => by unfold toPairs; rw [if_pos h], fun kvs => ?_, fun kvs => ?_⟩
  · unfold toObject toPairs
    rw [if_neg (by rw [flattenPairs_length]; omega), pairsBody_flatten]
    unfold renderPairsSpec
    simp [pairEntry]
  · unfold toComputed toPairs
    rw [if_neg (by rw [flattenPairs_length]; omega), pairsBody_flatten]
    unfold renderPairsSpec
    rw [List.map_map]
    simp only [pairEntry]
    rfl

/-- C7 witness: the pairwise-builder theorem applied to the odd list
`["a"]` and to the single pair `("k", "v")`. -/
theorem pairwise_builders_spec_witness :
    toPairs ["a"] "ds: each key must have a value" (fun v => v) = none ∧
    toObject (flattenPairs [("k", "v")]) = some (renderPairsSpec [("k", "v")]) :=
  ⟨pairwise_builders_spec.1 ["a"] "ds: each key must have a value" (fun v => v) (by decide),
    pairwise_builders_spec.2.1 [("k", "v")]⟩

/-- C8: the scalar-signal builder renders an object literal with unquoted
keys in input order, comma-space separated:
`Signals(Int("count",42), String("msg","hi"))` produces the value
`\x7bcount: 42, msg: "hi"\x7d` (string values JavaScript-quoted), and
`Signals()` produces `\x7b\x7d`. -/
theorem signals_render_spec :
    Signals [] = [("data-signals", AttrVal.str "\x7b\x7d")] ∧
    Signals [Signal.int "count" 42, Signal.string "msg" "hi"] =
      [("data-signals", AttrVal.str "\x7bcount: 42, msg: \"hi\"\x7d")] ∧
    (∀ sigs, Signals sigs =
      [("data-signals",
        AttrVal.str ("\x7b" ++ specJoin (sigs.map sigEntry) ++ "\x7d"))]) := by
  refine ⟨by decide, by decide, fun sigs => ?_⟩
  unfold Signals
  rw [loopJoin_specJoin]

/-- C9: `Merge` with zero inputs yields the empty attribute map; when
several inputs bind the same key the result holds the value of the latest
such input (last write wins, `lastWrite`); and the key count of the result
never exceeds the sum of the inputs' key counts.  (The remaining conjunct
of the claim — that merging copies entries into a fresh map without
mutating the inputs — is inherent in this pure-functional embedding.) -/
theorem merge_spec :
    Merge [] = [] ∧
    (∀ (ms : List AttrMap) (k : String), lookupA (Merge ms) k = lastWrite ms k) ∧
    (∀ ms : List AttrMap, (Merge ms).length ≤ (ms.map List.length).sum) :=
  ⟨rfl, merge_lookup, merge_length⟩

/-- C10: the repository's duplicate builder definitions are observationally
equal: the two copies of `Signals` in attrs.go produce identical attribute
maps on every input, and `Class` via the generic `buildPairs` helper agrees
with the dedicated `ClassPair`-based `Class` on corresponding pairs. -/
theorem duplicate_builders_agree :
    (∀ sigs, Signals sigs = SignalsDedicated sigs) ∧
    (∀ ps : List (String × String),
      ClassGeneric (ps.map fun p => PairItem.mk p.1 p.2) =
        ClassDedicated (ps.map fun p => ClassPair.mk p.1 p.2)) := by
  refine ⟨fun sigs => rfl, fun ps => ?_⟩
  unfold ClassGeneric ClassDedicated buildPairs
  rw [loopJoin_specJoin, loopJoin_specJoin, List.map_map, List.map_map]
  rfl

end DS
